import Mathlib

/-!
Verification of the redirs RESP codec, command interpreter, executor and
connection handler against their natural-language specification.

Embedding conventions:
* Raw bytes are modelled as `List Nat` (each element a byte value 0..255).
* Rust `&[u8]` slicing that can panic (`&i[n..]`, `&i[..n]`) is modelled with
  `dropChecked` / `takeChecked`, which return `none` exactly when Rust would
  panic with an out-of-range index.
* Rust `Option::unwrap` / `Result::unwrap` on a missing value, `panic!`, and
  failed `assert_eq!` are all modelled by an explicit `crash` outcome
  (`PRes.crash`, `IntRes.crash`, ...).
* `isize` arithmetic uses `Int` with the `as usize` cast modelled as
  reduction modulo 2^64 (`intToUsize`), and the `str::parse::<isize>`
  overflow bound modelled as `isizeMax = 2^63 - 1`.
* Rust `String` values are modelled by the list of bytes of their UTF-8
  representation; `String::from_utf8_lossy(..).to_string()` is modelled by
  `utf8Lossy`, a faithful transcription of Rust's lossy conversion
  (each maximal invalid subpart is replaced by U+FFFD = EF BF BD).
* The `DashMap<Vec<u8>, Vec<u8>>` store is modelled as a function
  `List Nat → Option (List Nat)`; `insert` is pointwise update, `get` is
  application.  Per-key atomicity of the concurrent map is outside the
  sequential model.
* `f64` (`Message::Double`) is modelled by the raw byte text between the
  `,` tag and the terminator: no claim in scope depends on float semantics,
  so the `parse::<f64>` success/value is not interpreted (its companion
  `str::from_utf8` UTF-8 check is modelled).
-/

namespace Redirs

/-- ASCII decimal digit test (`u8::is_ascii_digit`). -/
def isDigit (b : Nat) : Bool := 48 ≤ b && b ≤ 57

/-- Value of a list of ASCII digit bytes, most significant first
(`str::parse` on a digit string). -/
def digitsToNat (content : List Nat) : Nat :=
  content.foldl (fun acc d => acc * 10 + (d - 48)) 0

/-- Fuel-indexed worker for `natDigits`; the fuel only makes the
recursion structural and `natDigits` supplies enough of it (a number has
at most `n` decimal digits), so the exhaustion case is unreachable. -/
def natDigitsF : Nat → Nat → List Nat
  | 0, n => [48 + n % 10]
  | fuel + 1, n =>
    if n < 10 then [48 + n]
    else natDigitsF fuel (n / 10) ++ [48 + n % 10]

/-- ASCII decimal rendering of a natural number (`usize::to_string` /
the digits of `isize::to_string`). -/
def natDigits (n : Nat) : List Nat := natDigitsF n n

/-- ASCII decimal rendering of an `isize` (`isize::to_string`). -/
def intDigits (n : Int) : List Nat :=
  if n < 0 then 45 :: natDigits ((-n).toNat) else natDigits n.toNat

/-- Position of the first CR LF window (`i.windows(2).position(CRLF)`). -/
def findCrlf : List Nat → Option Nat
  | 13 :: 10 :: _ => some 0
  | _ :: rest => (findCrlf rest).map (· + 1)
  | [] => none

/-- Position of the first non-digit byte
(`i.windows(1).position(|w| !w[0].is_ascii_digit())`). -/
def posNonDigit : List Nat → Option Nat
  | [] => none
  | b :: rest => if !isDigit b then some 0 else (posNonDigit rest).map (· + 1)

/-- Rust `&i[n..]`: `some (i.drop n)` when `n ≤ i.len()`, else `none`
(Rust panics on an out-of-range start index). -/
def dropChecked (i : List Nat) (n : Nat) : Option (List Nat) :=
  if n ≤ i.length then some (i.drop n) else none

/-- Rust `&i[..n]`: `some (i.take n)` when `n ≤ i.len()`, else `none`
(Rust panics on an out-of-range end index). -/
def takeChecked (i : List Nat) (n : Nat) : Option (List Nat) :=
  if n ≤ i.length then some (i.take n) else none

/-- Largest `isize` value, `2^63 - 1`. -/
def isizeMax : Int := 9223372036854775807

/-- Rust `length as usize` on an `isize`: reduction modulo `2^64`. -/
def intToUsize (n : Int) : Nat := (n % (18446744073709551616 : Int)).toNat

/-- Bytes of an ASCII string literal (used only for fixed message texts). -/
def strBytes (s : String) : List Nat := s.data.map Char.toNat

/-- Rust `u8::to_ascii_lowercase` mapped over a byte vector. -/
def toAsciiLowercase (s : List Nat) : List Nat :=
  s.map (fun b => if 65 ≤ b && b ≤ 90 then b + 32 else b)

/-- Whether the byte list contains the CR LF terminator as a window. -/
def containsCrlf : List Nat → Bool
  | 13 :: 10 :: _ => true
  | _ :: rest => containsCrlf rest
  | [] => false

/-! UTF-8 lossy conversion, modelling `String::from_utf8_lossy`. -/

/-- UTF-8 continuation byte test (`0x80..=0xBF`). -/
def isCont (b : Nat) : Bool := 128 ≤ b && b ≤ 191

/-- Lead byte of a two-byte UTF-8 sequence (`0xC2..=0xDF`). -/
def utf8Need2 (b : Nat) : Bool := 194 ≤ b && b ≤ 223

/-- Valid second byte for a three- or four-byte lead `b`, following the
ranges of Rust's `run_utf8_validation` (E0, ED, F0 and F4 have restricted
second-byte ranges). -/
def utf8Valid2nd (b c : Nat) : Bool :=
  if b = 224 then 160 ≤ c && c ≤ 191
  else if b = 237 then 128 ≤ c && c ≤ 159
  else if 225 ≤ b && b ≤ 239 then isCont c
  else if b = 240 then 144 ≤ c && c ≤ 191
  else if b = 244 then 128 ≤ c && c ≤ 143
  else if 241 ≤ b && b ≤ 243 then isCont c
  else false

/-- UTF-8 encoding of U+FFFD, the replacement character. -/
def replChar : List Nat := [239, 191, 189]

/-- Fuel-indexed worker for `utf8Lossy`.  The fuel only makes the
recursion structural; every recursive call drops at least one byte while
consuming one unit of fuel, so with fuel equal to the input length the
`(0, byte :: _)` case is unreachable and its value is irrelevant. -/
def utf8LossyF : Nat → List Nat → List Nat
  | 0, _ => []
  | _ + 1, [] => []
  | fuel + 1, b :: rest =>
    if b < 128 then b :: utf8LossyF fuel rest
    else if utf8Need2 b then
      match rest with
      | c1 :: rest1 =>
        if isCont c1 then b :: c1 :: utf8LossyF fuel rest1
        else replChar ++ utf8LossyF fuel (c1 :: rest1)
      | [] => replChar
    else if 224 ≤ b && b ≤ 239 then
      match rest with
      | c1 :: rest1 =>
        if utf8Valid2nd b c1 then
          match rest1 with
          | c2 :: rest2 =>
            if isCont c2 then b :: c1 :: c2 :: utf8LossyF fuel rest2
            else replChar ++ utf8LossyF fuel (c2 :: rest2)
          | [] => replChar
        else replChar ++ utf8LossyF fuel (c1 :: rest1)
      | [] => replChar
    else if 240 ≤ b && b ≤ 244 then
      match rest with
      | c1 :: rest1 =>
        if utf8Valid2nd b c1 then
          match rest1 with
          | c2 :: rest2 =>
            if isCont c2 then
              match rest2 with
              | c3 :: rest3 =>
                if isCont c3 then b :: c1 :: c2 :: c3 :: utf8LossyF fuel rest3
                else replChar ++ utf8LossyF fuel (c3 :: rest3)
              | [] => replChar
            else replChar ++ utf8LossyF fuel (c2 :: rest2)
          | [] => replChar
        else replChar ++ utf8LossyF fuel (c1 :: rest1)
      | [] => replChar
    else replChar ++ utf8LossyF fuel rest

/-- Model of `String::from_utf8_lossy(bytes).to_string()` as a byte
transformation: valid scalar sequences are copied, each maximal invalid
subpart becomes one replacement character, an incomplete sequence at the
end becomes one replacement character. -/
def utf8Lossy (l : List Nat) : List Nat := utf8LossyF l.length l

/-- Decidable UTF-8 validity of a byte list, with the same sequence
classification as `utf8Lossy`. -/
def validUtf8 : List Nat → Bool
  | [] => true
  | b :: rest =>
    if b < 128 then validUtf8 rest
    else if utf8Need2 b then
      match rest with
      | c1 :: rest1 => isCont c1 && validUtf8 rest1
      | [] => false
    else if 224 ≤ b && b ≤ 239 then
      match rest with
      | c1 :: c2 :: rest2 => utf8Valid2nd b c1 && isCont c2 && validUtf8 rest2
      | _ => false
    else if 240 ≤ b && b ≤ 244 then
      match rest with
      | c1 :: c2 :: c3 :: rest3 =>
        utf8Valid2nd b c1 && isCont c2 && isCont c3 && validUtf8 rest3
      | _ => false
    else false

/-! Data model (`src/message/message.rs`). -/

/-- The `Message` enum of `message.rs`.  Byte-sequence payloads
(`&[u8]` in the borrowed design, `String` in the owned design) are
`List Nat`; the `f64` of `Double` is modelled by its wire text (see the
header note). -/
inductive Message where
  | SimpleString (s : List Nat)
  | Error (s : List Nat)
  | Integer (n : Int)
  | BulkString (s : Option (List Nat))
  | Array (xs : Option (List Message))
  | Null
  | Bool (b : Bool)
  | Double (text : List Nat)

/-! Serialisation (`src/message/serialise.rs`).  `serialise_message`
writes to a `Write` sink; the model returns the written byte list. -/

mutual

/-- Model of `serialise_message`: the bytes written for one message. -/
def serialiseMessage : Message → List Nat
  | .SimpleString s => 43 :: (s ++ [13, 10])
  | .Error s => 45 :: (s ++ [13, 10])
  | .Integer n => 58 :: (intDigits n ++ [13, 10])
  | .BulkString (some s) =>
      36 :: (natDigits s.length ++ [13, 10] ++ s ++ [13, 10])
  | .BulkString none => [36, 45, 49, 13, 10]
  | .Array (some xs) =>
      42 :: (natDigits xs.length ++ [13, 10] ++ serialiseList xs)
  | .Array none => [42, 45, 49, 13, 10]
  | .Null => [95, 13, 10]
  | .Bool true => [35, 116, 13, 10]
  | .Bool false => [35, 102, 13, 10]
  | .Double text => 44 :: (text ++ [13, 10])

/-- Serialisation of array elements in order (the loop in
`serialise_array`). -/
def serialiseList : List Message → List Nat
  | [] => []
  | m :: ms => serialiseMessage m ++ serialiseList ms

end

/-- Model of `Message::to_string`: serialise into a buffer, then
`String::from_utf8_lossy(..).into_owned()`. -/
def messageToString (m : Message) : List Nat := utf8Lossy (serialiseMessage m)

/-- Model of `Message::as_bulk_string`: the payload of a non-null
`BulkString`, else `None`. -/
def asBulkString : Message → Option (List Nat)
  | .BulkString (some s) => some s
  | _ => none

/-- Model of `Message::as_array`: the elements of a non-null `Array`,
else `None`. -/
def asArray : Message → Option (List Message)
  | .Array (some ms) => some ms
  | _ => none

/-! Parsing (`src/message/parse.rs`).

The source signals failure two ways: an `Err(&str)` value, and a panic
(`check_tag!`'s `assert_eq!`/`panic!`, `Option::unwrap`, `Result::unwrap`,
out-of-range slice indices, `panic!()` on an unknown tag).  `PRes.err`
models the former and `PRes.crash` the latter. -/

/-- Outcome of one sub-parser returning `Result<(&[u8], Message), &str>`,
with `crash` for a Rust panic. -/
inductive PRes where
  | ok (remaining : List Nat) (message : Message)
  | err
  | crash

/-- Outcome of `parse_signed_integer`. -/
inductive IntRes where
  | ok (remaining : List Nat) (n : Int)
  | err
  | crash

/-- Outcome of the element loop inside `parse_array`. -/
inductive ElemsRes where
  | ok (remaining : List Nat) (messages : List Message)
  | crash

/-- Model of `parse_simple_string` (tag `+`): bytes up to the first
CR LF, lossily converted; missing terminator is `Err`.  `check_tag!`
panics on an empty input or a wrong tag. -/
def parseSimpleString (i : List Nat) : PRes :=
  match i with
  | [] => .crash
  | t :: rest =>
    if t ≠ 43 then .crash
    else
      match findCrlf rest with
      | some pos => .ok (rest.drop (pos + 2)) (.SimpleString (utf8Lossy (rest.take pos)))
      | none => .err

/-- Model of `parse_error` (tag `-`).  The source constructs
`Message::SimpleString`, not `Message::Error`, from the content — this is
transcribed as-is. -/
def parseError (i : List Nat) : PRes :=
  match i with
  | [] => .crash
  | t :: rest =>
    if t ≠ 45 then .crash
    else
      match findCrlf rest with
      | some pos => .ok (rest.drop (pos + 2)) (.SimpleString (utf8Lossy (rest.take pos)))
      | none => .err

/-- Model of `parse_signed_integer`: optional `+`/`-` sign, then digits up
to the first non-digit byte.  `i.get(0).unwrap()` panics on empty input;
`parse::<isize>` panics (via `.unwrap()`) on an empty digit string or on
overflow; digits running to the end of input is `Err`. -/
def parseSignedInteger (i : List Nat) : IntRes :=
  match i with
  | [] => .crash
  | b0 :: _ =>
    let j := if b0 = 43 || b0 = 45 then i.drop 1 else i
    match posNonDigit j with
    | none => .err
    | some pos =>
      let content := j.take pos
      if content.isEmpty then .crash
      else
        let n : Int := Int.ofNat (digitsToNat content)
        if isizeMax < n then .crash
        else .ok (j.drop pos) (if b0 = 45 then -n else n)

/-- Model of `parse_integer` (tag `:`): a signed integer, then an
unchecked two-byte skip (`&i[2..]`, panicking when fewer than two bytes
remain; the skipped bytes are not compared against CR LF).  The `.unwrap()`
on the sub-result turns `Err` into a panic. -/
def parseInteger (i : List Nat) : PRes :=
  match i with
  | [] => .crash
  | t :: rest =>
    if t ≠ 58 then .crash
    else
      match parseSignedInteger rest with
      | .ok i2 n =>
        match dropChecked i2 2 with
        | some rem => .ok rem (.Integer n)
        | none => .crash
      | _ => .crash

/-- Model of `parse_bulk_string` (tag `$`), lines 78-92 of `parse.rs`:
a signed length; `-1` yields `BulkString(None)` after an unchecked
two-byte skip; otherwise the length is cast `as usize`, exactly that many
content bytes are taken (`&i[..length]`, panicking when too few remain),
converted lossily, and `length + 2` bytes are skipped without comparing
the trailing two bytes against CR LF. -/
def parseBulkString (i : List Nat) : PRes :=
  match i with
  | [] => .crash
  | t :: rest =>
    if t ≠ 36 then .crash
    else
      match parseSignedInteger rest with
      | .ok i2 n =>
        if n = -1 then
          match dropChecked i2 2 with
          | some rem => .ok rem (.BulkString none)
          | none => .crash
        else
          match dropChecked i2 2 with
          | none => .crash
          | some i3 =>
            let len := intToUsize n
            match takeChecked i3 len with
            | none => .crash
            | some content =>
              match dropChecked i3 (len + 2) with
              | some rem => .ok rem (.BulkString (some (utf8Lossy content)))
              | none => .crash
      | _ => .crash

/-- Model of `parse_null` (tag `_`): an unchecked two-byte skip. -/
def parseNull (i : List Nat) : PRes :=
  match i with
  | [] => .crash
  | t :: rest =>
    if t ≠ 95 then .crash
    else
      match dropChecked rest 2 with
      | some rem => .ok rem .Null
      | none => .crash

/-- Model of `parse_bool` (tag `#`): `t`/`f` (any other byte panics via
`panic!()`, a missing byte via `.unwrap()`), then an unchecked three-byte
skip from after the tag. -/
def parseBool (i : List Nat) : PRes :=
  match i with
  | [] => .crash
  | t :: rest =>
    if t ≠ 35 then .crash
    else
      match rest with
      | [] => .crash
      | v :: _ =>
        if v = 116 then
          match dropChecked rest 3 with
          | some rem => .ok rem (.Bool true)
          | none => .crash
        else if v = 102 then
          match dropChecked rest 3 with
          | some rem => .ok rem (.Bool false)
          | none => .crash
        else .crash

/-- Model of `parse_double` (tag `,`): bytes up to the first CR LF,
required to be valid UTF-8 (`str::from_utf8(..).unwrap()` panics
otherwise); the `f64` value is kept as its wire text (see the header
note on `Double`).  A missing terminator is `Err`. -/
def parseDouble (i : List Nat) : PRes :=
  match i with
  | [] => .crash
  | t :: rest =>
    if t ≠ 44 then .crash
    else
      match findCrlf rest with
      | some pos =>
        let content := rest.take pos
        if validUtf8 content then .ok (rest.drop (pos + 2)) (.Double content)
        else .crash
      | none => .err

mutual

/-- Model of `parse_message` (lines 141-155 of `parse.rs`): dispatch on
the first byte (`i.get(0).unwrap()` panics on empty input, an unknown tag
hits `panic!()`), then `.unwrap()` the sub-result, turning `Err` into a
panic.  The `fuel` argument only bounds the `parse_message`/`parse_array`
recursion depth so the model is total; `parseMessage` below supplies
`input length + 1`, which no run can exhaust, because every recursive
step first consumes at least three bytes of input while the chain
`parseMessageF` → `parseArrayF` → `parseElemsF` consumes at most three
units of fuel per step. -/
def parseMessageF : Nat → List Nat → PRes
  | 0, _ => .crash
  | fuel + 1, i =>
    match i with
    | [] => .crash
    | t :: _ =>
      let r :=
        if t = 43 then parseSimpleString i
        else if t = 45 then parseError i
        else if t = 58 then parseInteger i
        else if t = 36 then parseBulkString i
        else if t = 42 then parseArrayF fuel i
        else if t = 95 then parseNull i
        else if t = 35 then parseBool i
        else if t = 44 then parseDouble i
        else .crash
      match r with
      | .ok rem m => .ok rem m
      | _ => .crash

/-- Model of `parse_array` (tag `*`): a signed length; `-1` yields
`Array(None)` after an unchecked two-byte skip; otherwise the length is
cast `as usize` and that many messages are parsed in sequence, each
`.unwrap()`ped (so any element failure panics). -/
def parseArrayF : Nat → List Nat → PRes
  | 0, _ => .crash
  | fuel + 1, i =>
    match i with
    | [] => .crash
    | t :: rest =>
      if t ≠ 42 then .crash
      else
        match parseSignedInteger rest with
        | .ok i2 n =>
          if n = -1 then
            match dropChecked i2 2 with
            | some rem => .ok rem (.Array none)
            | none => .crash
          else
            match dropChecked i2 2 with
            | none => .crash
            | some i3 =>
              match parseElemsF fuel (intToUsize n) i3 with
              | .ok rem ms => .ok rem (.Array (some ms))
              | .crash => .crash
        | _ => .crash

/-- The element loop of `parse_array`: `length` iterations of
`parse_message(i).unwrap()`, threading the remaining input. -/
def parseElemsF : Nat → Nat → List Nat → ElemsRes
  | _, 0, i => .ok i []
  | 0, _ + 1, _ => .crash
  | fuel + 1, count + 1, i =>
    match parseMessageF fuel i with
    | .ok rem m =>
      match parseElemsF fuel count rem with
      | .ok rem2 ms => .ok rem2 (m :: ms)
      | .crash => .crash
    | _ => .crash

end

/-- Top-level decode: `parse_message` on the full input, with enough fuel
that the bound never bites (see `parseMessageF`). -/
def parseMessage (i : List Nat) : PRes := parseMessageF (i.length + 1) i

/-! Command layer (`src/command.rs`). -/

/-- The `Command` enum: `PING`, `ECHO(&[u8])`, `SET(&[u8], &[u8])`,
`GET(&[u8])`. -/
inductive Command where
  | PING
  | ECHO (s : List Nat)
  | SET (key : List Nat) (value : List Nat)
  | GET (key : List Nat)
  deriving DecidableEq

/-- The `CommandParseError` enum, with its `String` payloads as byte
lists. -/
inductive CommandParseError where
  | InvalidMessageFormat (s : List Nat)
  | InvalidCommand (s : List Nat)
  | InvalidArguments (s : List Nat)

/-- Bytes of `b"PONG"`. -/
def PONG : List Nat := [80, 79, 78, 71]

/-- Bytes of `b"OK"`. -/
def OK : List Nat := [79, 75]

/-- The `check_arg_len!` error text,
`format!("Wrong number of arguments for the {0} command", cmd_name)`
with the braces elided as fixed prefix/suffix text. -/
def wrongNumMsg (cmdName : List Nat) : List Nat :=
  strBytes ("Wrong number of arguments for the ") ++ cmdName
    ++ strBytes (" command")

/-- The `unwrap_bulk_string!` error text. -/
def notBulkMsg : List Nat := strBytes ("Argument not a BulkString")

/-- Model of `parse_ping`: `check_arg_len!(arguments, 0, "ECHO")` (the
source names `ECHO` in ping's error text), then `Command::PING`. -/
def parsePing (arguments : List Message) : Except CommandParseError Command :=
  match arguments with
  | [] => .ok .PING
  | _ :: _ => .error (.InvalidArguments (wrongNumMsg (strBytes ("ECHO"))))

/-- Model of `parse_echo`: one argument, which must be a non-null
`BulkString`. -/
def parseEcho (arguments : List Message) : Except CommandParseError Command :=
  match arguments with
  | [a] =>
    match asBulkString a with
    | some s => .ok (.ECHO s)
    | none => .error (.InvalidArguments notBulkMsg)
  | _ => .error (.InvalidArguments (wrongNumMsg (strBytes ("ECHO"))))

/-- Model of `parse_set`: two arguments, key then value, each a non-null
`BulkString` (checked in that order). -/
def parseSet (arguments : List Message) : Except CommandParseError Command :=
  match arguments with
  | [a, b] =>
    match asBulkString a with
    | none => .error (.InvalidArguments notBulkMsg)
    | some key =>
      match asBulkString b with
      | none => .error (.InvalidArguments notBulkMsg)
      | some value => .ok (.SET key value)
  | _ => .error (.InvalidArguments (wrongNumMsg (strBytes ("SET"))))

/-- Model of `parse_get`: one argument, a non-null `BulkString`. -/
def parseGet (arguments : List Message) : Except CommandParseError Command :=
  match arguments with
  | [a] =>
    match asBulkString a with
    | some key => .ok (.GET key)
    | none => .error (.InvalidArguments notBulkMsg)
  | _ => .error (.InvalidArguments (wrongNumMsg (strBytes ("GET"))))

/-- Bytes of `b"ping"`. -/
def pingLC : List Nat := [112, 105, 110, 103]

/-- Bytes of `b"echo"`. -/
def echoLC : List Nat := [101, 99, 104, 111]

/-- Bytes of `b"set"`. -/
def setLC : List Nat := [115, 101, 116]

/-- Bytes of `b"get"`. -/
def getLC : List Nat := [103, 101, 116]

/-- Model of `parse_command` (lines 31-53 of `command.rs`): the message
must be a non-null array (`as_array`), with a first element
(`first()`), which must be a non-null bulk string (`as_bulk_string`,
whose absence is reported as `InvalidCommand`, not as
`InvalidMessageFormat`); the name is lowercased and dispatched, unknown
names yielding `InvalidCommand`. -/
def parseCommand (message : Message) : Except CommandParseError Command :=
  match asArray message with
  | none => .error (.InvalidMessageFormat (messageToString message))
  | some messages =>
    match messages with
    | [] => .error (.InvalidMessageFormat (messageToString message))
    | first :: arguments =>
      match asBulkString first with
      | none => .error (.InvalidCommand (messageToString message))
      | some nameBytes =>
        let command := toAsciiLowercase nameBytes
        if command = pingLC then parsePing arguments
        else if command = echoLC then parseEcho arguments
        else if command = setLC then parseSet arguments
        else if command = getLC then parseGet arguments
        else .error (.InvalidCommand (utf8Lossy command))

/-! Store and command execution (`src/command.rs`, `handle_command`).

The `DashMap<Vec<u8>, Vec<u8>>` is modelled as a map from key bytes to
optional value bytes; `insert` overwrites, `get` looks up.  The source's
`handle_command` serialises its reply straight into the connection's
writer; the model returns the reply `Message` (the bytes written are its
serialisation) together with the updated store. -/

/-- The shared store: a total map from key to optional value. -/
def Store : Type := List Nat → Option (List Nat)

/-- Model of `DashMap::insert`: pointwise update. -/
def storeInsert (db : Store) (key value : List Nat) : Store :=
  fun k => if k = key then some value else db k

/-- The empty store. -/
def storeEmpty : Store := fun _ => none

/-- Model of `handle_command` (lines 97-114 of `command.rs`): the updated
store and the reply message.  It is total: every command yields a
well-formed reply. -/
def handleCommand (command : Command) (db : Store) : Store × Message :=
  match command with
  | .PING => (db, .BulkString (some PONG))
  | .ECHO s => (db, .BulkString (some s))
  | .SET key value => (storeInsert db key value, .BulkString (some OK))
  | .GET key =>
    match db key with
    | some value => (db, .BulkString (some value))
    | none => (db, .BulkString none)

/-! Connection handling (`src/server.rs`). -/

/-- Outcome of handling the bytes of one `stream.read` in
`handle_client`: a reply written back with an updated store, a silent
continue (the `if let Ok` falls through on a decode `Err`), or a panic
that unwinds the worker thread. -/
inductive StepOutcome where
  | reply (bytes : List Nat) (db : Store)
  | skip (db : Store)
  | crash

/-- Model of `handle_message` (lines 67-75 of `server.rs`):
`parse_command(message).unwrap()` panics on any command-parse error;
otherwise the command is executed and the serialised reply written to
the stream. -/
def handleMessage (message : Message) (db : Store) : StepOutcome :=
  match parseCommand message with
  | .error _ => .crash
  | .ok cmd =>
    let r := handleCommand cmd db
    .reply (serialiseMessage r.2) r.1

/-- BUFFER_SIZE from `server.rs`. -/
def bufferSize : Nat := 1024

/-- The read buffer as `parse_message` sees it: the received bytes
followed by the zero fill of the rest of the 1024-byte buffer
(`parse_message(&buffer[..])` is applied to the whole buffer). -/
def clientBuffer (data : List Nat) : List Nat :=
  data ++ List.replicate (bufferSize - data.length) 0

/-- Model of one `Ok(_)` iteration of the read loop in `handle_client`
(lines 43-65 of `server.rs`): parse the buffer; on success handle the
message; a decode `Err` is silently skipped (no reply is written); a
decode panic unwinds the worker. -/
def handleClientStep (buffer : List Nat) (db : Store) : StepOutcome :=
  match parseMessage buffer with
  | .ok _ m => handleMessage m db
  | .err => .skip db
  | .crash => .crash

/-- Predicate on interpreter results: is the result an
`InvalidMessageFormat` error? -/
def resultIsInvalidFormat : Except CommandParseError Command → Bool
  | .error (.InvalidMessageFormat _) => true
  | _ => false

/-- Predicate on messages: is this a non-null `BulkString`? -/
def isBulkSome (m : Message) : Bool := (asBulkString m).isSome

/-! Supporting lemmas. -/

/-- One-step unfolding of `utf8LossyF` on a nonempty list, stated for
rewriting (the generated equation lemmas are per-branch). -/
theorem utf8LossyF_succ_cons (fuel b : Nat) (rest : List Nat) :
    utf8LossyF (fuel + 1) (b :: rest) =
    (if b < 128 then b :: utf8LossyF fuel rest
    else if utf8Need2 b then
      match rest with
      | c1 :: rest1 =>
        if isCont c1 then b :: c1 :: utf8LossyF fuel rest1
        else replChar ++ utf8LossyF fuel (c1 :: rest1)
      | [] => replChar
    else if 224 ≤ b && b ≤ 239 then
      match rest with
      | c1 :: rest1 =>
        if utf8Valid2nd b c1 then
          match rest1 with
          | c2 :: rest2 =>
            if isCont c2 then b :: c1 :: c2 :: utf8LossyF fuel rest2
            else replChar ++ utf8LossyF fuel (c2 :: rest2)
          | [] => replChar
        else replChar ++ utf8LossyF fuel (c1 :: rest1)
      | [] => replChar
    else if 240 ≤ b && b ≤ 244 then
      match rest with
      | c1 :: rest1 =>
        if utf8Valid2nd b c1 then
          match rest1 with
          | c2 :: rest2 =>
            if isCont c2 then
              match rest2 with
              | c3 :: rest3 =>
                if isCont c3 then b :: c1 :: c2 :: c3 :: utf8LossyF fuel rest3
                else replChar ++ utf8LossyF fuel (c3 :: rest3)
              | [] => replChar
            else replChar ++ utf8LossyF fuel (c2 :: rest2)
          | [] => replChar
        else replChar ++ utf8LossyF fuel (c1 :: rest1)
      | [] => replChar
    else replChar ++ utf8LossyF fuel rest) := rfl

/-- One-step unfolding of `validUtf8` on a nonempty list, stated for
rewriting. -/
theorem validUtf8_cons (b : Nat) (rest : List Nat) :
    validUtf8 (b :: rest) =
    (if b < 128 then validUtf8 rest
    else if utf8Need2 b then
      match rest with
      | c1 :: rest1 => isCont c1 && validUtf8 rest1
      | [] => false
    else if 224 ≤ b && b ≤ 239 then
      match rest with
      | c1 :: c2 :: rest2 => utf8Valid2nd b c1 && isCont c2 && validUtf8 rest2
      | _ => false
    else if 240 ≤ b && b ≤ 244 then
      match rest with
      | c1 :: c2 :: c3 :: rest3 =>
        utf8Valid2nd b c1 && isCont c2 && isCont c3 && validUtf8 rest3
      | _ => false
    else false) := by
  cases rest with
  | nil => rfl
  | cons c1 rest1 =>
    cases rest1 with
    | nil => rfl
    | cons c2 rest2 =>
      cases rest2 with
      | nil => rfl
      | cons c3 rest3 => rfl

/-- With enough fuel, lossy conversion of valid UTF-8 is the identity. -/
theorem utf8LossyF_of_valid (fuel : Nat) : ∀ l : List Nat, l.length ≤ fuel →
    validUtf8 l = true → utf8LossyF fuel l = l := by
  induction fuel with
  | zero =>
    intro l hlen _
    cases l with
    | nil => rfl
    | cons b rest => simp at hlen
  | succ f ih =>
    intro l hlen hv
    cases l with
    | nil => rfl
    | cons b rest =>
      simp only [List.length_cons, Nat.add_le_add_iff_right] at hlen
      rw [validUtf8_cons] at hv
      rw [utf8LossyF_succ_cons]
      by_cases h1 : b < 128
      · rw [if_pos h1] at hv
        rw [if_pos h1, ih rest hlen hv]
      · rw [if_neg h1] at hv ⊢
        by_cases h2 : utf8Need2 b = true
        · rw [if_pos h2] at hv ⊢
          cases rest with
          | nil => simp at hv
          | cons c1 rest1 =>
            simp only [Bool.and_eq_true] at hv
            have hr1 : rest1.length ≤ f := by simp at hlen; omega
            simp [hv.1, ih rest1 hr1 hv.2]
        · rw [if_neg h2] at hv ⊢
          by_cases h3 : (224 ≤ b && b ≤ 239) = true
          · rw [if_pos h3] at hv ⊢
            cases rest with
            | nil => simp at hv
            | cons c1 rest1 =>
              cases rest1 with
              | nil => simp at hv
              | cons c2 rest2 =>
                simp only [Bool.and_eq_true] at hv
                obtain ⟨⟨hva, hvb⟩, hvc⟩ := hv
                have hr2 : rest2.length ≤ f := by simp at hlen; omega
                simp [hva, hvb, ih rest2 hr2 hvc]
          · rw [if_neg h3] at hv ⊢
            by_cases h4 : (240 ≤ b && b ≤ 244) = true
            · rw [if_pos h4] at hv ⊢
              cases rest with
              | nil => simp at hv
              | cons c1 rest1 =>
                cases rest1 with
                | nil => simp at hv
                | cons c2 rest2 =>
                  cases rest2 with
                  | nil => simp at hv
                  | cons c3 rest3 =>
                    simp only [Bool.and_eq_true] at hv
                    obtain ⟨⟨⟨hva, hvb⟩, hvc⟩, hvd⟩ := hv
                    have hr3 : rest3.length ≤ f := by simp at hlen; omega
                    simp [hva, hvb, hvc, ih rest3 hr3 hvd]
            · rw [if_neg h4] at hv
              simp at hv

/-- Lossy conversion of valid UTF-8 is the identity
(`String::from_utf8_lossy` on valid UTF-8 borrows the input verbatim). -/
theorem utf8Lossy_of_valid (l : List Nat) (hv : validUtf8 l = true) :
    utf8Lossy l = l :=
  utf8LossyF_of_valid l.length l le_rfl hv

/-- Appending a digit multiplies the accumulated value by ten. -/
theorem digitsToNat_append (xs : List Nat) (d : Nat) :
    digitsToNat (xs ++ [d]) = 10 * digitsToNat xs + (d - 48) := by
  simp [digitsToNat, List.foldl_append, Nat.mul_comm]

/-- With enough fuel, `natDigitsF` renders exactly its input: its digits
evaluate back to the number, every byte is an ASCII digit, and the list
is nonempty. -/
theorem natDigitsF_spec (fuel : Nat) : ∀ n : Nat, n < 10 ^ (fuel + 1) →
    digitsToNat (natDigitsF fuel n) = n ∧
      (∀ x ∈ natDigitsF fuel n, isDigit x = true) ∧ natDigitsF fuel n ≠ [] := by
  induction fuel with
  | zero =>
    intro n hn
    have hn10 : n < 10 := by simpa using hn
    refine ⟨?_, ?_, by simp [natDigitsF]⟩
    · simp [natDigitsF, digitsToNat, Nat.mod_eq_of_lt hn10]
    · intro x hx
      simp [natDigitsF] at hx
      simp [hx, isDigit, Nat.mod_eq_of_lt hn10]
      omega
  | succ f ih =>
    intro n hn
    by_cases h10 : n < 10
    · refine ⟨?_, ?_, by simp [natDigitsF, h10]⟩
      · simp [natDigitsF, h10, digitsToNat]
      · intro x hx
        simp [natDigitsF, h10] at hx
        simp [hx, isDigit]
        omega
    · have hdiv : n / 10 < 10 ^ (f + 1) := by
        rw [Nat.div_lt_iff_lt_mul (by norm_num)]
        calc n < 10 ^ (f + 1 + 1) := hn
        _ = 10 ^ (f + 1) * 10 := by ring
      obtain ⟨ihv, ihd, _⟩ := ih (n / 10) hdiv
      refine ⟨?_, ?_, by simp [natDigitsF, h10]⟩
      · rw [natDigitsF, if_neg h10, digitsToNat_append, ihv]
        omega
      · intro x hx
        rw [natDigitsF, if_neg h10] at hx
        rcases List.mem_append.mp hx with hx | hx
        · exact ihd x hx
        · simp at hx
          simp [hx, isDigit]
          omega

/-- The decimal rendering of `n` evaluates back to `n`, consists of
ASCII digits only, and is nonempty. -/
theorem natDigits_spec (n : Nat) :
    digitsToNat (natDigits n) = n ∧
      (∀ x ∈ natDigits n, isDigit x = true) ∧ natDigits n ≠ [] := by
  have h1 : n < 10 ^ n := Nat.lt_pow_self (by norm_num) n
  have h2 : (10 : Nat) ^ n ≤ 10 ^ (n + 1) :=
    Nat.pow_le_pow_right (by norm_num) (by omega)
  exact natDigitsF_spec n n (lt_of_lt_of_le h1 h2)

/-- Unfolding of `parseSignedInteger` on a nonempty input, stated for
rewriting. -/
theorem parseSignedInteger_cons (b0 : Nat) (tail : List Nat) :
    parseSignedInteger (b0 :: tail) =
      (let j := if b0 = 43 || b0 = 45 then (b0 :: tail).drop 1 else b0 :: tail
       match posNonDigit j with
       | none => IntRes.err
       | some pos =>
         let content := j.take pos
         if content.isEmpty then IntRes.crash
         else
           let n : Int := Int.ofNat (digitsToNat content)
           if isizeMax < n then IntRes.crash
           else IntRes.ok (j.drop pos) (if b0 = 45 then -n else n)) := rfl

/-- Unfolding of `parseBulkString` on a `$`-tagged input, stated for
rewriting. -/
theorem parseBulkString_unfold (rest : List Nat) :
    parseBulkString (36 :: rest) =
      (match parseSignedInteger rest with
       | .ok i2 n =>
         if n = -1 then
           match dropChecked i2 2 with
           | some rem => PRes.ok rem (.BulkString none)
           | none => PRes.crash
         else
           match dropChecked i2 2 with
           | none => PRes.crash
           | some i3 =>
             let len := intToUsize n
             match takeChecked i3 len with
             | none => PRes.crash
             | some content =>
               match dropChecked i3 (len + 2) with
               | some rem => PRes.ok rem (.BulkString (some (utf8Lossy content)))
               | none => PRes.crash
       | _ => PRes.crash) := rfl

/-- A `$`-tagged input is dispatched by `parse_message` to
`parse_bulk_string`, whose `Err` results are `.unwrap()`ped into panics. -/
theorem parseMessage_bulkTag (rest : List Nat) :
    parseMessage (36 :: rest) =
      (match parseBulkString (36 :: rest) with
       | .ok rem m => PRes.ok rem m
       | _ => PRes.crash) := rfl

/-- Scanning all-digit bytes followed by a non-digit byte finds the
non-digit at exactly the digits' length. -/
theorem posNonDigit_append (l : List Nat) (b : Nat) (r : List Nat)
    (hl : ∀ x ∈ l, isDigit x = true) (hb : isDigit b = false) :
    posNonDigit (l ++ b :: r) = some l.length := by
  induction l with
  | nil => simp [posNonDigit, hb]
  | cons a as ih =>
    have ha : isDigit a = true := hl a (by simp)
    have := ih (fun x hx => hl x (by simp [hx]))
    simp [posNonDigit, ha, this]

/-- On an input consisting of a decimal length rendering followed by a
carriage return, `parse_signed_integer` returns that length and leaves
the input from the carriage return on. -/
theorem parseSignedInteger_digits (L : Nat) (r : List Nat)
    (hL : (L : Int) ≤ isizeMax) :
    parseSignedInteger (natDigits L ++ 13 :: r) = .ok (13 :: r) (L : Int) := by
  obtain ⟨hval, hdig, hne⟩ := natDigits_spec L
  obtain ⟨d, ds, hds⟩ : ∃ d ds, natDigits L = d :: ds := by
    cases h : natDigits L with
    | nil => exact absurd h hne
    | cons d ds => exact ⟨d, ds, rfl⟩
  have hd : isDigit d = true := hdig d (by rw [hds]; simp)
  have hd48 : 48 ≤ d ∧ d ≤ 57 := by
    simpa [isDigit] using hd
  have hsign : (d = 43 || d = 45) = false := by
    simp
    omega
  have hdnot45 : (d = 45) = False := by
    simp
    omega
  rw [hds, List.cons_append, parseSignedInteger_cons]
  simp only [hsign, Bool.false_eq_true, if_false]
  have hpos : posNonDigit (d :: (ds ++ 13 :: r)) = some (d :: ds).length := by
    rw [← List.cons_append]
    exact posNonDigit_append (d :: ds) 13 r (by rw [← hds]; exact hdig) (by decide)
  rw [hpos]
  simp only [← List.cons_append, List.take_left, List.drop_left]
  have hcontent : (d :: ds).isEmpty = false := by simp
  rw [hcontent]
  rw [← hds, hval]
  have hnl : ¬ isizeMax < Int.ofNat L := by exact_mod_cast not_lt.mpr hL
  simp [hnl, hdnot45]
  exact hL

/-- The `parse_command` dispatch on a message whose first element is a
non-null bulk string, stated for rewriting. -/
theorem parseCommand_named (name : List Nat) (args : List Message) :
    parseCommand (.Array (some (.BulkString (some name) :: args))) =
      (if toAsciiLowercase name = pingLC then parsePing args
       else if toAsciiLowercase name = echoLC then parseEcho args
       else if toAsciiLowercase name = setLC then parseSet args
       else if toAsciiLowercase name = getLC then parseGet args
       else .error (.InvalidCommand (utf8Lossy (toAsciiLowercase name)))) := rfl

/-- The ping argument parser never reports `InvalidMessageFormat`. -/
theorem parsePing_not_invalidFormat (args : List Message) :
    resultIsInvalidFormat (parsePing args) = false := by
  cases args <;> rfl

/-- The echo argument parser never reports `InvalidMessageFormat`. -/
theorem parseEcho_not_invalidFormat (args : List Message) :
    resultIsInvalidFormat (parseEcho args) = false := by
  cases args with
  | nil => rfl
  | cons a t =>
    cases t with
    | nil => cases h : asBulkString a <;> simp [parseEcho, h, resultIsInvalidFormat]
    | cons b t2 => rfl

/-- The set argument parser never reports `InvalidMessageFormat`. -/
theorem parseSet_not_invalidFormat (args : List Message) :
    resultIsInvalidFormat (parseSet args) = false := by
  cases args with
  | nil => rfl
  | cons a t =>
    cases t with
    | nil => rfl
    | cons b t2 =>
      cases t2 with
      | nil =>
        cases h1 : asBulkString a with
        | none => simp [parseSet, h1, resultIsInvalidFormat]
        | some k =>
          cases h2 : asBulkString b <;> simp [parseSet, h1, h2, resultIsInvalidFormat]
      | cons c t3 => rfl

/-- The get argument parser never reports `InvalidMessageFormat`. -/
theorem parseGet_not_invalidFormat (args : List Message) :
    resultIsInvalidFormat (parseGet args) = false := by
  cases args with
  | nil => rfl
  | cons a t =>
    cases t with
    | nil => cases h : asBulkString a <;> simp [parseGet, h, resultIsInvalidFormat]
    | cons b t2 => rfl

/-- A message whose `as_bulk_string` is `Some` is a non-null
`BulkString`. -/
theorem asBulkString_eq_some {m : Message} {s : List Nat}
    (h : asBulkString m = some s) : m = .BulkString (some s) := by
  cases m with
  | BulkString o =>
    cases o with
    | none => simp [asBulkString] at h
    | some t =>
      simp only [asBulkString, Option.some.injEq] at h
      rw [h]
  | SimpleString a => simp [asBulkString] at h
  | Error a => simp [asBulkString] at h
  | Integer a => simp [asBulkString] at h
  | Array a => simp [asBulkString] at h
  | Null => simp [asBulkString] at h
  | Bool a => simp [asBulkString] at h
  | Double a => simp [asBulkString] at h

/-- The four lowercase command names are pairwise distinct. -/
theorem commandNames_distinct :
    echoLC ≠ pingLC ∧ setLC ≠ pingLC ∧ setLC ≠ echoLC ∧
    getLC ≠ pingLC ∧ getLC ≠ echoLC ∧ getLC ≠ setLC := by
  refine ⟨?_, ?_, ?_, ?_, ?_, ?_⟩ <;> decide

/-! Claim theorems. -/

/-- Claim C1 (code_bug evidence): the round-trip law fails on the
`Error` variant.  Encoding `Error "e"` and decoding the result yields
`SimpleString "e"` with no remaining bytes — `parse_error` constructs
`Message::SimpleString` from the content, contradicting the library's own
`test_error`, which expects `Message::Error` back. -/
theorem errorVariant_roundtrip_broken :
    parseMessage (serialiseMessage (.Error [101])) =
      .ok [] (.SimpleString [101]) ∧
    Message.SimpleString [101] ≠ Message.Error [101] :=
  ⟨rfl, fun h => Message.noConfusion h⟩

/-- Claim C2 (code_bug evidence): `$5\r\nhello\r\n` is a valid frame
decoding to `BulkString "hello"`, but its strict prefix `$5\r\nhello`
makes the decoder panic (the unchecked `&i[length+2..]` slice), and the
empty prefix panics as well (`i.get(0).unwrap()`) — neither yields an
`Incomplete` error value (no such error exists in the code). -/
theorem truncated_bulk_frame_crashes :
    parseMessage [36, 53, 13, 10, 104, 101, 108, 108, 111, 13, 10] =
      .ok [] (.BulkString (some [104, 101, 108, 108, 111])) ∧
    parseMessage [36, 53, 13, 10, 104, 101, 108, 108, 111] = .crash ∧
    parseMessage [] = .crash :=
  ⟨rfl, rfl, rfl⟩

/-- Claim C3: `handle_command` is total and returns exactly the
specified replies: `PONG` for ping, the argument for echo, `OK` after
unconditionally overwriting the entry for set (the new value is
observable at the key), and the stored value or a null bulk string for
get. -/
theorem handleCommand_spec (db : Store) :
    handleCommand .PING db = (db, .BulkString (some PONG)) ∧
    (∀ s, handleCommand (.ECHO s) db = (db, .BulkString (some s))) ∧
    (∀ key value,
      handleCommand (.SET key value) db =
        (storeInsert db key value, .BulkString (some OK)) ∧
      (handleCommand (.SET key value) db).1 key = some value) ∧
    (∀ key,
      handleCommand (.GET key) db =
        (db, match db key with
             | some v => Message.BulkString (some v)
             | none => Message.BulkString none)) := by
  refine ⟨rfl, fun s => rfl,
    fun key value => ⟨rfl, by simp [handleCommand, storeInsert]⟩,
    fun key => ?_⟩
  cases h : db key <;> simp [handleCommand, h]

set_option maxRecDepth 100000 in
/-- Claim C4 (code_bug evidence): the connection handler does not
translate failures into protocol `Error` replies.  A well-formed frame
carrying a non-array message (`+hi\r\n`) decodes, but
`parse_command(message).unwrap()` in `handle_message` panics, unwinding
the worker; a buffer that fails to decode (all zero bytes) panics inside
`parse_message` before any reply can be sent.  No `Error` reply is
produced in either case. -/
theorem handler_crashes_on_bad_frame_or_command :
    handleClientStep (clientBuffer [43, 104, 105, 13, 10]) storeEmpty = .crash ∧
    handleClientStep (clientBuffer []) storeEmpty = .crash :=
  ⟨rfl, rfl⟩

/-- Claim C5 (counterexample): a bulk-string frame of declared length 3
whose payload `FF 0D 0A` contains the raw terminator bytes decodes, but
the payload comes back as `EF BF BD 0D 0A` — the `0xFF` byte was
replaced by U+FFFD by `String::from_utf8_lossy` — not as the original
three bytes. -/
theorem bulk_payload_mangled :
    parseMessage [36, 51, 13, 10, 255, 13, 10, 13, 10] =
      .ok [] (.BulkString (some [239, 191, 189, 13, 10])) ∧
    ([239, 191, 189, 13, 10] : List Nat) ≠ [255, 13, 10] :=
  ⟨rfl, by decide⟩

/-- Claim C5 (amended): for a bulk-string frame of declared length
`N = payload length` whose payload is valid UTF-8 (the lossy conversion
is then the identity), contains raw terminator bytes, and whose length
fits in `isize`, decoding returns exactly the payload unchanged with no
remaining bytes. -/
theorem bulk_binary_safe_valid_utf8 (p : List Nat)
    (hv : validUtf8 p = true) (_hc : containsCrlf p = true)
    (hL : (p.length : Int) ≤ isizeMax) :
    parseMessage (serialiseMessage (.BulkString (some p))) =
      .ok [] (.BulkString (some p)) := by
  have hser : serialiseMessage (.BulkString (some p)) =
      36 :: (natDigits p.length ++ 13 :: 10 :: (p ++ [13, 10])) := by
    simp [serialiseMessage]
  rw [hser, parseMessage_bulkTag, parseBulkString_unfold,
    parseSignedInteger_digits p.length (10 :: (p ++ [13, 10])) hL]
  have hne : ¬ ((p.length : Int) = -1) := by omega
  have hdrop2 : dropChecked (13 :: 10 :: (p ++ [13, 10])) 2 = some (p ++ [13, 10]) := by
    simp [dropChecked]
  have hlen64 : intToUsize (p.length : Int) = p.length := by
    simp only [isizeMax] at hL
    simp only [intToUsize]
    omega
  have hlenplus : (p ++ [13, 10]).length = p.length + 2 := by simp
  have htake : takeChecked (p ++ [13, 10]) p.length = some p := by
    rw [takeChecked, if_pos (by simp), List.take_left]
  have hdropAll : dropChecked (p ++ [13, 10]) (p.length + 2) = some [] := by
    rw [dropChecked, if_pos (by simp), ← hlenplus, List.drop_length]
  simp only [hne, if_false, hdrop2, hlen64, htake, hdropAll,
    utf8Lossy_of_valid p hv]

/-- Claim C6 (counterexample): a one-element array whose first element is
an `Integer`, not a bulk string, is reported as `InvalidCommand`
(carrying the serialised message text `*1\r\n:5\r\n`), not as the
`InvalidMessageFormat` error the claim requires. -/
theorem first_elem_not_bulk_invalid_command :
    parseCommand (.Array (some [.Integer 5])) =
      .error (.InvalidCommand [42, 49, 13, 10, 58, 53, 13, 10]) ∧
    resultIsInvalidFormat (parseCommand (.Array (some [.Integer 5]))) = false :=
  ⟨rfl, rfl⟩

/-- Claim C6 (amended): `parse_command` reports `InvalidMessageFormat`
exactly when the message is not an array, is a null array, or is an
empty array; a nonempty array whose first element is not a non-null bulk
string is instead reported as `InvalidCommand`. -/
theorem invalidFormat_iff_no_elements (m : Message) :
    resultIsInvalidFormat (parseCommand m) = true ↔
      asArray m = none ∨ asArray m = some [] := by
  cases m with
  | Array xs =>
    cases xs with
    | none => simp [parseCommand, asArray, resultIsInvalidFormat]
    | some ms =>
      cases ms with
      | nil => simp [parseCommand, asArray, resultIsInvalidFormat]
      | cons first args =>
        simp only [asArray]
        obtain ⟨dEP, dSP, dSE, dGP, dGE, dGS⟩ := commandNames_distinct
        constructor
        · intro h
          exfalso
          revert h
          cases hb : asBulkString first with
          | none =>
            simp [parseCommand, asArray, hb, resultIsInvalidFormat]
          | some name =>
            rw [asBulkString_eq_some hb, parseCommand_named]
            by_cases h1 : toAsciiLowercase name = pingLC
            · simp [h1, parsePing_not_invalidFormat]
            · by_cases h2 : toAsciiLowercase name = echoLC
              · simp [h2, dEP, parseEcho_not_invalidFormat]
              · by_cases h3 : toAsciiLowercase name = setLC
                · simp [h3, dSP, dSE, parseSet_not_invalidFormat]
                · by_cases h4 : toAsciiLowercase name = getLC
                  · simp [h4, dGP, dGE, dGS, parseGet_not_invalidFormat]
                  · simp [h1, h2, h3, h4, resultIsInvalidFormat]
        · intro h
          simp at h
  | SimpleString s => simp [parseCommand, asArray, resultIsInvalidFormat]
  | Error s => simp [parseCommand, asArray, resultIsInvalidFormat]
  | Integer n => simp [parseCommand, asArray, resultIsInvalidFormat]
  | BulkString s => simp [parseCommand, asArray, resultIsInvalidFormat]
  | Null => simp [parseCommand, asArray, resultIsInvalidFormat]
  | Bool b => simp [parseCommand, asArray, resultIsInvalidFormat]
  | Double t => simp [parseCommand, asArray, resultIsInvalidFormat]

/-- Claim C7 (code_bug evidence): a declared length of `-1` correctly
yields the null bulk string and null array, but a declared length of
`-2` panics in both cases — the `length as usize` cast wraps to a huge
number and the `&i[..length]` slice (or the element loop) fails — there
is no `InvalidLength` error value in the code. -/
theorem negative_length_crashes :
    parseMessage [36, 45, 49, 13, 10] = .ok [] (.BulkString none) ∧
    parseMessage [42, 45, 49, 13, 10] = .ok [] (.Array none) ∧
    parseMessage [36, 45, 50, 13, 10] = .crash ∧
    parseMessage [42, 45, 50, 13, 10] = .crash :=
  ⟨rfl, rfl, rfl, rfl⟩

/-- Claim C8: for each recognised (case-insensitive) command name, the
interpreter returns a command exactly when the argument count is 0
(ping), 1 (echo), 2 (set) or 1 (get) and every argument is a non-null
bulk string; otherwise it returns `InvalidArguments`. -/
theorem parseCommand_arity_spec (name : List Nat) (args : List Message) :
    (toAsciiLowercase name = pingLC →
      ((∃ c, parseCommand (.Array (some (.BulkString (some name) :: args))) = .ok c) ↔
          (args.length = 0 ∧ args.all isBulkSome = true)) ∧
        (¬ (args.length = 0 ∧ args.all isBulkSome = true) →
          ∃ s, parseCommand (.Array (some (.BulkString (some name) :: args))) =
            .error (.InvalidArguments s))) ∧
    (toAsciiLowercase name = echoLC →
      ((∃ c, parseCommand (.Array (some (.BulkString (some name) :: args))) = .ok c) ↔
          (args.length = 1 ∧ args.all isBulkSome = true)) ∧
        (¬ (args.length = 1 ∧ args.all isBulkSome = true) →
          ∃ s, parseCommand (.Array (some (.BulkString (some name) :: args))) =
            .error (.InvalidArguments s))) ∧
    (toAsciiLowercase name = setLC →
      ((∃ c, parseCommand (.Array (some (.BulkString (some name) :: args))) = .ok c) ↔
          (args.length = 2 ∧ args.all isBulkSome = true)) ∧
        (¬ (args.length = 2 ∧ args.all isBulkSome = true) →
          ∃ s, parseCommand (.Array (some (.BulkString (some name) :: args))) =
            .error (.InvalidArguments s))) ∧
    (toAsciiLowercase name = getLC →
      ((∃ c, parseCommand (.Array (some (.BulkString (some name) :: args))) = .ok c) ↔
          (args.length = 1 ∧ args.all isBulkSome = true)) ∧
        (¬ (args.length = 1 ∧ args.all isBulkSome = true) →
          ∃ s, parseCommand (.Array (some (.BulkString (some name) :: args))) =
            .error (.InvalidArguments s))) := by
  have dEP : echoLC ≠ pingLC := by decide
  have dSP : setLC ≠ pingLC := by decide
  have dSE : setLC ≠ echoLC := by decide
  have dGP : getLC ≠ pingLC := by decide
  have dGE : getLC ≠ echoLC := by decide
  have dGS : getLC ≠ setLC := by decide
  refine ⟨?_, ?_, ?_, ?_⟩
  · intro hname
    rw [parseCommand_named, hname, if_pos rfl]
    cases args with
    | nil => exact ⟨by simp [parsePing], fun h => absurd ⟨rfl, rfl⟩ h⟩
    | cons a t =>
      constructor
      · simp [parsePing]
      · intro _
        exact ⟨_, rfl⟩
  · intro hname
    rw [parseCommand_named, hname, if_neg dEP, if_pos rfl]
    cases args with
    | nil =>
      exact ⟨by simp [parseEcho], fun _ => ⟨_, rfl⟩⟩
    | cons a t =>
      cases t with
      | nil =>
        cases h : asBulkString a with
        | none =>
          refine ⟨by simp [parseEcho, h, isBulkSome], fun _ => ⟨notBulkMsg, ?_⟩⟩
          simp [parseEcho, h]
        | some s =>
          refine ⟨?_, fun hcontra => absurd ⟨rfl, by simp [isBulkSome, h]⟩ hcontra⟩
          simp [parseEcho, h, isBulkSome]
      | cons b t2 => exact ⟨by simp [parseEcho], fun _ => ⟨_, rfl⟩⟩
  · intro hname
    rw [parseCommand_named, hname, if_neg dSP, if_neg dSE, if_pos rfl]
    cases args with
    | nil => exact ⟨by simp [parseSet], fun _ => ⟨_, rfl⟩⟩
    | cons a t =>
      cases t with
      | nil => exact ⟨by simp [parseSet], fun _ => ⟨_, rfl⟩⟩
      | cons b t2 =>
        cases t2 with
        | nil =>
          cases h1 : asBulkString a with
          | none =>
            refine ⟨by simp [parseSet, h1, isBulkSome], fun _ => ⟨notBulkMsg, ?_⟩⟩
            simp [parseSet, h1]
          | some k =>
            cases h2 : asBulkString b with
            | none =>
              refine ⟨by simp [parseSet, h1, h2, isBulkSome], fun _ => ⟨notBulkMsg, ?_⟩⟩
              simp [parseSet, h1, h2]
            | some v =>
              refine ⟨?_, fun hcontra =>
                absurd ⟨rfl, by simp [isBulkSome, h1, h2]⟩ hcontra⟩
              simp [parseSet, h1, h2, isBulkSome]
        | cons c t3 => exact ⟨by simp [parseSet], fun _ => ⟨_, rfl⟩⟩
  · intro hname
    rw [parseCommand_named, hname, if_neg dGP, if_neg dGE, if_neg dGS, if_pos rfl]
    cases args with
    | nil => exact ⟨by simp [parseGet], fun _ => ⟨_, rfl⟩⟩
    | cons a t =>
      cases t with
      | nil =>
        cases h : asBulkString a with
        | none =>
          refine ⟨by simp [parseGet, h, isBulkSome], fun _ => ⟨notBulkMsg, ?_⟩⟩
          simp [parseGet, h]
        | some s =>
          refine ⟨?_, fun hcontra => absurd ⟨rfl, by simp [isBulkSome, h]⟩ hcontra⟩
          simp [parseGet, h, isBulkSome]
      | cons b t2 => exact ⟨by simp [parseGet], fun _ => ⟨_, rfl⟩⟩

/-- Claim C9 (code_bug evidence): after the declared-length payload the
decoder skips two bytes without comparing them to CR LF — the frame
`$3\r\nabcXY` whose trailing bytes are `XY` decodes successfully to
`BulkString "abc"` — and when the two bytes are absent (`$3\r\nabc`) it
panics on the out-of-range slice instead of returning an error (the
library's own `test_parse_bulk_string` expects an `Err` for the missing
terminator). -/
theorem bulk_trailing_terminator_not_checked :
    parseMessage [36, 51, 13, 10, 97, 98, 99, 88, 89] =
      .ok [] (.BulkString (some [97, 98, 99])) ∧
    parseMessage [36, 51, 13, 10, 97, 98, 99] = .crash :=
  ⟨rfl, rfl⟩

/-- Claim C10: executing `Set(key, value)` changes at most the entry for
`key`: `Get` on any other key returns the same reply afterwards as
before. -/
theorem set_other_keys_unchanged (db : Store) (key value otherKey : List Nat)
    (h : otherKey ≠ key) :
    (handleCommand (.GET otherKey) ((handleCommand (.SET key value) db).1)).2 =
      (handleCommand (.GET otherKey) db).2 := by
  cases hk : db otherKey <;>
    simp [handleCommand, storeInsert, h, hk]

/-! Witnesses for the claim theorems with hypotheses. -/

/-- Witness for `bulk_binary_safe_valid_utf8` at the concrete payload
`a CR LF b`: valid UTF-8, containing the terminator bytes, decoding to
itself. -/
theorem bulk_binary_safe_valid_utf8_witness :
    validUtf8 [97, 13, 10, 98] = true ∧
    containsCrlf [97, 13, 10, 98] = true ∧
    (([97, 13, 10, 98] : List Nat).length : Int) ≤ isizeMax ∧
    parseMessage (serialiseMessage (.BulkString (some [97, 13, 10, 98]))) =
      .ok [] (.BulkString (some [97, 13, 10, 98])) :=
  ⟨by decide, by decide, by decide,
    bulk_binary_safe_valid_utf8 [97, 13, 10, 98] (by decide) (by decide) (by decide)⟩

/-- Witness for `parseCommand_arity_spec`: the uppercase command
`SET key value` with two bulk-string arguments parses to a command. -/
theorem parseCommand_arity_spec_witness :
    toAsciiLowercase [83, 69, 84] = setLC ∧
    (∃ c, parseCommand (.Array (some (.BulkString (some [83, 69, 84]) ::
        [.BulkString (some [107]), .BulkString (some [118])]))) = .ok c) :=
  ⟨by decide,
    (((parseCommand_arity_spec [83, 69, 84]
        [.BulkString (some [107]), .BulkString (some [118])]).2.2.1
      (by decide)).1).mpr (by decide)⟩

/-- Witness for `set_other_keys_unchanged` at concrete distinct keys. -/
theorem set_other_keys_unchanged_witness :
    ([50] : List Nat) ≠ [49] ∧
    (handleCommand (.GET [50]) ((handleCommand (.SET [49] [7]) storeEmpty).1)).2 =
      (handleCommand (.GET [50]) storeEmpty).2 :=
  ⟨by decide, set_other_keys_unchanged storeEmpty [49] [7] [50] (by decide)⟩

end Redirs
